import Mathlib

/-
A shallow embedding of the APM Planner binary flight-log parser
(src/src/ui/LogParser/BinLogParser.cpp).  The definitions mirror the C++
source line by line; material that lives outside src/ (the class header
with the wire constants, the Qt container semantics, the
AP2DataPlotStatus accumulator and the AP2DataPlot2DModel sink interface)
is modelled from the spec and marked as such in the doc comments.
Bytes are Nat (0..255), byte buffers are List Nat, the QString values are
Lean String built from the byte data.
-/

/-- Wire constant START_BYTE_1.  Modelled from the spec: the class header
defining the constant is not under src/; spec fixes START_BYTE_1 = 0xA3. -/
def s_StartByte1 : Nat := 0xA3

/-- Wire constant START_BYTE_2.  Modelled from the spec: START_BYTE_2 = 0x95. -/
def s_StartByte2 : Nat := 0x95

/-- Message type code of FMT records.  Modelled from the spec: 0x80. -/
def s_FMTMessageType : Nat := 0x80

/-- Message type code of STRT records.  Modelled from the spec: the numeric
id is producer-defined; the claims do not depend on its value, we fix 0x0A. -/
def s_STRTMessageType : Nat := 0x0A

/-- Minimal number of buffered bytes needed to try a header.  Modelled from
the spec: MIN_HEADER_SIZE = 3. -/
def s_MinHeaderSize : Nat := 3

/-- Size of the 3-byte record header (start bytes plus type code).
Modelled from the spec: header size = 3 bytes. -/
def s_HeaderOffset : Nat := 3

/-- FMT body field width for the type name.  Modelled from the spec: 4. -/
def s_FMTNameSize : Nat := 4

/-- FMT body field width for the format string.  Modelled from the spec: 16. -/
def s_FMTFormatSize : Nat := 16

/-- FMT body field width for the label list.  Modelled from the spec: 64. -/
def s_FMTLabelsSize : Nat := 64

/-- Conversion of a fixed byte window to a QString, as performed by the
implicit QByteArray-to-QString assignments in parseFMTMessage: copying
stops at the first 0 byte. -/
def byteArrayToString (bs : List Nat) : String :=
  String.mk ((bs.takeWhile (fun b => b ≠ 0)).map Char.ofNat)

/-- QString::split(",") on a nonempty character list: the separator splits
the text into parts, empty parts included. -/
def splitAux (sep : Char) : List Char → List Char → List String
  | [], acc => [String.mk acc.reverse]
  | c :: rest, acc =>
    if c = sep then String.mk acc.reverse :: splitAux sep rest []
    else splitAux sep rest (c :: acc)

/-- Little-endian value of a byte list (first byte least significant),
as read by the QDataStream configured with LittleEndian byte order. -/
def leNat (bs : List Nat) : Nat :=
  bs.foldr (fun b acc => b + 256 * acc) 0

/-- Reading n bytes at offset pos from the extracted record data:
QDataStream yields 0 for every byte read past the end of the array. -/
def readBytes (data : List Nat) (pos n : Nat) : List Nat :=
  ((data.drop pos).take n) ++ List.replicate (n - (data.drop pos).length) 0

/-- Two's-complement reinterpretation of a w-bit unsigned value, as done by
reading into the signed qintN variables. -/
def toSigned (w v : Nat) : Int :=
  if v < 2 ^ (w - 1) then (v : Int) else (v : Int) - 2 ^ w

/-- The `val != val` NaN test on a just-read float32, expressed on the
4-byte little-endian bit pattern: exponent all ones and mantissa nonzero. -/
def isNaN32 (bits : Nat) : Bool :=
  (bits / 2 ^ 23 % 256 == 255) && (bits % 2 ^ 23 != 0)

/-- The MAV_TYPE values the parser assigns (mavlink enum, not under src/;
modelled from the spec's vehicle-kind set). -/
inductive MavType where
  | generic
  | quadrotor
  | fixedWing
  | groundRover
  deriving DecidableEq, Repr, Inhabited

/-- A decoded scalar as held by the QVariant in a NameValuePair: integers
(all the b/B/h/H/i/I/M/q/Q codes), scaled values raw/divisor (c/C/e/E/L,
kept symbolically as the raw integer and the divisor), a float32 kept as
its bit pattern (f), or a string (n/N/Z). -/
inductive BinValue where
  | intVal : Int → BinValue
  | scaled : Int → Nat → BinValue
  | floatBits : Nat → BinValue
  | strVal : String → BinValue
  deriving DecidableEq, Repr, Inhabited

/-- QVariant::toULongLong as used by readTimeStamp.  Modelled from the Qt
interface (not under src/): integers convert by two's complement into the
unsigned 64-bit range, scaled values truncate, strings and raw float bit
patterns are never used as timestamps by the claims and map to 0. -/
def BinValue.toULongLong : BinValue → Nat
  | BinValue.intVal v => if v < 0 then ((2 ^ 64 : Int) + v).toNat else v.toNat
  | BinValue.scaled n d =>
    let q : Int := n / (d : Int)
    if q < 0 then ((2 ^ 64 : Int) + q).toNat else q.toNat
  | BinValue.floatBits _ => 0
  | BinValue.strVal _ => 0

/-- One decoded field: (label, value), mirroring the QPair NameValuePair. -/
abbrev NameValuePair : Type := String × BinValue

/-- A timestamp convention: label name and unit divisor.  The class is
declared in the header, which is not under src/.  Modelled from the spec:
a (name, divisor) pair; the default-constructed value is invalid; the
divisors 1000000.0 and 1000.0 are kept as the naturals 1000000 and 1000. -/
structure timeStampType where
  m_name : String
  m_divisor : Nat
  deriving DecidableEq, Repr

/-- Validity of a timestamp convention.  Modelled from the spec: the
active convention starts unset; a convention obtained from the candidate
list has a nonempty name, the default-constructed one an empty name. -/
def timeStampType.valid (t : timeStampType) : Bool :=
  t.m_name ≠ ""

instance : Inhabited timeStampType := ⟨⟨"", 0⟩⟩

/-- The fixed candidate timestamp list pushed in the constructor. -/
def possibleTimestamps : List timeStampType :=
  [⟨"TimeUS", 1000000⟩, ⟨"TimeMS", 1000⟩]

/-- The schema of one message type (BinLogParser::typeDescriptor). -/
structure typeDescriptor where
  m_ID : Nat
  m_length : Nat
  m_name : String
  m_format : String
  m_labels : List String
  m_hasTimeStamp : Bool
  m_timeStampIndex : Nat
  deriving DecidableEq, Repr

/-- The default constructor: ID 0xFF, length 0, no timestamp. -/
instance : Inhabited typeDescriptor := ⟨⟨0xFF, 0, "", "", [], false, 0⟩⟩

/-- typeDescriptor::finalize: look the timestamp name up in the labels and
record its index when present. -/
def typeDescriptor.finalize (d : typeDescriptor) (ts : timeStampType) : typeDescriptor :=
  match d.m_labels.findIdx? (fun l => l = ts.m_name) with
  | some i => { d with m_hasTimeStamp := true, m_timeStampIndex := i }
  | none => d

/-- typeDescriptor::addTimeStampField: prepend the timestamp label, prepend
a Q format code, grow the length by 8 and mark the timestamp at index 0. -/
def typeDescriptor.addTimeStampField (d : typeDescriptor) (ts : timeStampType) : typeDescriptor :=
  { d with
    m_labels := ts.m_name :: d.m_labels
    m_format := String.mk ('Q' :: d.m_format.toList)
    m_length := d.m_length + 8
    m_hasTimeStamp := true
    m_timeStampIndex := 0 }

/-- typeDescriptor::replaceLabelName: replace the first occurrence of a
label, when present. -/
def typeDescriptor.replaceLabelName (d : typeDescriptor) (oldName newName : String) : typeDescriptor :=
  match d.m_labels.findIdx? (fun l => l = oldName) with
  | some i => { d with m_labels := d.m_labels.set i newName }
  | none => d

/-- typeDescriptor::getLabelAtIndex: the label at the index, or "NoLabel"
past the end of the label list. -/
def typeDescriptor.getLabelAtIndex (d : typeDescriptor) (i : Nat) : String :=
  d.m_labels.getD i "NoLabel"

/-- typeDescriptor::hasNoTimestamp. -/
def typeDescriptor.hasNoTimestamp (d : typeDescriptor) : Bool :=
  !d.m_hasTimeStamp

/-- typeDescriptor::isValid: the general validity check, with the special
tolerant branches for the FMT and STRT ids. -/
def typeDescriptor.isValid (d : typeDescriptor) : Bool :=
  if d.m_ID = s_FMTMessageType then
    (d.m_ID != 0xFF) && (d.m_length != 0) && (d.m_name.length != 0) &&
      (d.m_format.length != 0) && (d.m_labels.length != 0)
  else if d.m_ID = s_STRTMessageType then
    (d.m_ID != 0xFF) && (d.m_length != 0) && (d.m_name.length != 0) &&
      (d.m_format.length == d.m_labels.length)
  else
    (d.m_ID != 0xFF) && (d.m_length != 0) && (d.m_name.length != 0) &&
      (d.m_format.length != 0) && (d.m_format.length == d.m_labels.length)

/-- The diagnostics accumulator (AP2DataPlotStatus, declared outside src/).
Modelled from the spec: it records valid rows, the corrupt-FMT,
corrupt-data and corrupt-time incidents each with the message counter and
a message, the non-message byte count and the detected vehicle kind. -/
structure AP2DataPlotStatus where
  validRows : Nat
  corruptFMT : List (Nat × String)
  corruptData : List (Nat × String)
  corruptTime : List (Nat × String)
  noMessageBytes : Nat
  mavType : MavType
  deriving DecidableEq, Repr

instance : Inhabited AP2DataPlotStatus := ⟨⟨0, [], [], [], 0, MavType.generic⟩⟩

/-- Status accessor: record one corrupt-FMT incident. -/
def AP2DataPlotStatus.corruptFMTRead (s : AP2DataPlotStatus) (mc : Nat) (msg : String) :
    AP2DataPlotStatus :=
  { s with corruptFMT := s.corruptFMT ++ [(mc, msg)] }

/-- Status accessor: record one corrupt-data incident. -/
def AP2DataPlotStatus.corruptDataRead (s : AP2DataPlotStatus) (mc : Nat) (msg : String) :
    AP2DataPlotStatus :=
  { s with corruptData := s.corruptData ++ [(mc, msg)] }

/-- Status accessor: record one corrupt-time incident. -/
def AP2DataPlotStatus.corruptTimeRead (s : AP2DataPlotStatus) (mc : Nat) (msg : String) :
    AP2DataPlotStatus :=
  { s with corruptTime := s.corruptTime ++ [(mc, msg)] }

/-- Status accessor: count one valid data row. -/
def AP2DataPlotStatus.validDataRead (s : AP2DataPlotStatus) : AP2DataPlotStatus :=
  { s with validRows := s.validRows + 1 }

/-- Status accessor: store the resynchronization byte count. -/
def AP2DataPlotStatus.setNoMessageBytes (s : AP2DataPlotStatus) (n : Nat) : AP2DataPlotStatus :=
  { s with noMessageBytes := n }

/-- Status accessor: store the detected vehicle kind. -/
def AP2DataPlotStatus.setMavType (s : AP2DataPlotStatus) (t : MavType) : AP2DataPlotStatus :=
  { s with mavType := t }

/-- The borrowed sink (AP2DataPlot2DModel, outside src/).  Modelled from
the spec's sink contract: each operation may report failure; the model
abstracts it as boolean oracles that are functions of the call arguments. -/
structure Sink where
  startOk : Bool
  endOk : Bool
  addTypeOk : String → Nat → Nat → String → List String → Bool
  addRowOk : String → List NameValuePair → String → Bool

/-- A sink that accepts everything. -/
def alwaysOkSink : Sink :=
  ⟨true, true, fun _ _ _ _ _ => true, fun _ _ _ => true⟩

/-- The descriptor registry m_typeToDescriptorMap, as an association list
(newest entry first; an id is inserted at most once). -/
abbrev DescMap : Type := List (Nat × typeDescriptor)

/-- QMap::contains. -/
def descMapContains (m : DescMap) (k : Nat) : Bool :=
  (List.find? (fun e => e.1 == k) m).isSome

/-- QMap::value (the code only calls it for contained keys). -/
def descMapLookup (m : DescMap) (k : Nat) : Option typeDescriptor :=
  (List.find? (fun e => e.1 == k) m).map (fun e => e.2)

/-- QMap::insert of a fresh key. -/
def descMapInsert (m : DescMap) (k : Nat) (d : typeDescriptor) : DescMap :=
  (k, d) :: m

/-- The mutable parser state owned by one parse invocation: the data
members of BinLogParser, the remaining upstream file bytes, and the
observable call log of the borrowed sink (types registered, rows added,
the final setAllRowsHaveTime call). -/
structure ParseState where
  dataBlock : List Nat
  dataPos : Nat
  messageType : Nat
  typeToDescriptorMap : DescMap
  activeTimestamp : timeStampType
  descriptorForDeferredStorage : List typeDescriptor
  lastValidTimeStamp : Nat
  timeErrorCount : Nat
  messageCounter : Nat
  noMessageBytesCtr : Nat
  logLoadingState : AP2DataPlotStatus
  stop : Bool
  loadedLogType : MavType
  file : List Nat
  sinkTypes : List (String × Nat × Nat × String × List String)
  sinkRows : List (String × List NameValuePair × String)
  sinkSetAllRows : Option (Bool × String × Nat)
  deriving DecidableEq, Repr

/-- The state right after construction, with the whole upstream byte
stream still unread. -/
def initialState (fileBytes : List Nat) : ParseState :=
  { dataBlock := []
    dataPos := 0
    messageType := 0
    typeToDescriptorMap := ([] : List (Nat × typeDescriptor))
    activeTimestamp := ⟨"", 0⟩
    descriptorForDeferredStorage := []
    lastValidTimeStamp := 0
    timeErrorCount := 0
    messageCounter := 0
    noMessageBytesCtr := 0
    logLoadingState := default
    stop := false
    loadedLogType := MavType.generic
    file := fileBytes
    sinkTypes := []
    sinkRows := []
    sinkSetAllRows := none }

/-- BinLogParser::headerIsValid: consume the two start bytes and the type
code.  The C++ && short-circuits, so a first-byte mismatch advances the
cursor by one and a second-byte mismatch by two; a valid header advances
by three and yields the type code.  Returns (valid, new cursor, type). -/
def headerIsValid (block : List Nat) (pos : Nat) : Bool × Nat × Nat :=
  if block.getD pos 0 = s_StartByte1 then
    if block.getD (pos + 1) 0 = s_StartByte2 then
      (true, pos + 3, block.getD (pos + 2) 0)
    else (false, pos + 2, 0)
  else (false, pos + 1, 0)

/-- BinLogParser::storeDescriptor: insert a valid, fresh descriptor into
the registry; forward non-FMT descriptors to the sink, augmenting them
with a synthetic timestamp field when they lack one; report duplicates
and invalid descriptors as corrupt FMT.  Returns the new state and false
exactly on sink addType failure. -/
def storeDescriptor (sink : Sink) (st : ParseState) (desc : typeDescriptor) :
    ParseState × Bool :=
  if desc.isValid then
    if !(descMapContains st.typeToDescriptorMap desc.m_ID) then
      let st1 := { st with
        typeToDescriptorMap := descMapInsert st.typeToDescriptorMap desc.m_ID desc }
      if desc.m_ID ≠ s_FMTMessageType then
        let d2 := if desc.hasNoTimestamp then desc.addTimeStampField st.activeTimestamp else desc
        let st2 := { st1 with
          sinkTypes := st1.sinkTypes ++ [(d2.m_name, d2.m_ID, d2.m_length, d2.m_format, d2.m_labels)] }
        if sink.addTypeOk d2.m_name d2.m_ID d2.m_length d2.m_format d2.m_labels then
          ({ st2 with messageCounter := st2.messageCounter + 1 }, true)
        else (st2, false)
      else (st1, true)
    else
      let msg := desc.m_name ++ " format data: Doubled entry found. Using the first one."
      ({ st with logLoadingState := st.logLoadingState.corruptFMTRead st.messageCounter msg }, true)
  else
    let msg := desc.m_name ++ " format data: Corrupt or missing. Message type is:0x" ++
      String.mk (Nat.toDigits 16 desc.m_ID)
    ({ st with logLoadingState := st.logLoadingState.corruptFMTRead st.messageCounter msg }, true)

/-- BinLogParser::checkForValidTimestamp: adopt the first candidate
convention present in the labels, finalize the descriptor when a valid
convention is (now) active, and defer the descriptor. -/
def checkForValidTimestamp (st : ParseState) (desc : typeDescriptor) : ParseState :=
  let newTs :=
    match possibleTimestamps.find? (fun t => desc.m_labels.contains t.m_name) with
    | some t => t
    | none => st.activeTimestamp
  let desc2 := if newTs.valid then desc.finalize newTs else desc
  { st with
    activeTimestamp := newTs
    descriptorForDeferredStorage := st.descriptorForDeferredStorage ++ [desc2] }

/-- BinLogParser::extendedStoreDescriptor: store every deferred descriptor
in arrival order (continuing past individual failures while recording
them in the return code), clear the queue, then store the current
descriptor when no deferred store failed. -/
def extendedStoreDescriptor (sink : Sink) (st : ParseState) (desc : typeDescriptor) :
    ParseState × Bool :=
  let folded := st.descriptorForDeferredStorage.foldl
    (fun (acc : ParseState × Bool) d =>
      let r := storeDescriptor sink acc.1 d
      (r.1, acc.2 && r.2))
    (st, true)
  let st2 := { folded.1 with descriptorForDeferredStorage := [] }
  if folded.2 then storeDescriptor sink st2 desc else (st2, false)

/-- BinLogParser::readTimeStamp: enforce monotonicity on the raw integer
at the timestamp index: a non-decreasing value updates the last valid
timestamp; a decreasing one is overwritten with the last valid timestamp
and recorded as a corrupt-time incident (the verbose-warning counter
saturates at 51 without affecting the recording). -/
def readTimeStamp (st : ParseState) (pairs : List NameValuePair) (tsIdx : Nat) :
    ParseState × List NameValuePair :=
  let tempVal := (pairs.getD tsIdx default).2.toULongLong
  if st.lastValidTimeStamp ≤ tempVal then
    ({ st with lastValidTimeStamp := tempVal }, pairs)
  else
    let msg := "Log time is not increasing! Last Time:" ++ toString st.lastValidTimeStamp ++
      " new Time:" ++ toString tempVal
    let st2 := { st with
      timeErrorCount := st.timeErrorCount + (if st.timeErrorCount < 51 then 1 else 0)
      logLoadingState := st.logLoadingState.corruptTimeRead st.messageCounter msg }
    (st2, pairs.set tsIdx ((pairs.getD tsIdx default).1, BinValue.intVal st.lastValidTimeStamp))

/-- BinLogParser::storeNameValuePairList: prepend the synthetic timestamp
for descriptors without one, otherwise run the monotonicity check; then
add the row to the sink.  Returns the new state, the (possibly modified)
value list and false exactly on sink addRow failure. -/
def storeNameValuePairList (sink : Sink) (st : ParseState) (pairs : List NameValuePair)
    (desc : typeDescriptor) : ParseState × List NameValuePair × Bool :=
  let r :=
    if desc.hasNoTimestamp then
      (st, (st.activeTimestamp.m_name, BinValue.intVal (st.lastValidTimeStamp : Int)) :: pairs)
    else readTimeStamp st pairs desc.m_timeStampIndex
  let st2 := { r.1 with
    sinkRows := r.1.sinkRows ++ [(desc.m_name, r.2, r.1.activeTimestamp.m_name)] }
  if sink.addRowOk desc.m_name r.2 st2.activeTimestamp.m_name then
    ({ st2 with
        messageCounter := st2.messageCounter + 1
        logLoadingState := st2.logLoadingState.validDataRead }, r.2, true)
  else (st2, r.2, false)

/-- BinLogParser::detectMavType: find the field labeled "Name" (falling
back to index 0 when absent) and transition the vehicle kind on the
matching parameter names. -/
def detectMavType (st : ParseState) (pairs : List NameValuePair) : ParseState :=
  let nameIndex := (pairs.findIdx? (fun p => p.1 = "Name")).getD 0
  let v := (pairs.getD nameIndex default).2
  let lt :=
    if v = BinValue.strVal "RATE_RLL_P" ∨ v = BinValue.strVal "H_SWASH_PLATE" ∨
        v = BinValue.strVal "ATC_RAT_RLL_P" then MavType.quadrotor
    else if v = BinValue.strVal "PTCH2SRV_P" then MavType.fixedWing
    else if v = BinValue.strVal "SKID_STEER_OUT" then MavType.groundRover
    else st.loadedLogType
  let st2 := { st with loadedLogType := lt }
  if lt ≠ MavType.generic then
    { st2 with logLoadingState := st2.logLoadingState.setMavType lt }
  else st2

/-- The field-decoding loop of BinLogParser::parseDataByDescriptor: walk
the format string left to right over the extracted record bytes, one
branch per format letter.  A NaN float or an unknown format letter clears
the accumulated list, records a corrupt-data incident and stops.  Returns
the final value list and the corrupt-data incidents recorded during the
decode (mc is the message counter used in those incidents). -/
def decodeFields (desc : typeDescriptor) (mc : Nat) (data : List Nat) :
    List Char → Nat → Nat → List NameValuePair → List NameValuePair × List (Nat × String)
  | [], _, _, acc => (acc, [])
  | c :: rest, i, pos, acc =>
    if c = 'b' then
      decodeFields desc mc data rest (i + 1) (pos + 1)
        (acc ++ [(desc.getLabelAtIndex i, BinValue.intVal (toSigned 8 (leNat (readBytes data pos 1))))])
    else if c = 'B' then
      decodeFields desc mc data rest (i + 1) (pos + 1)
        (acc ++ [(desc.getLabelAtIndex i, BinValue.intVal (leNat (readBytes data pos 1)))])
    else if c = 'h' then
      decodeFields desc mc data rest (i + 1) (pos + 2)
        (acc ++ [(desc.getLabelAtIndex i, BinValue.intVal (toSigned 16 (leNat (readBytes data pos 2))))])
    else if c = 'H' then
      decodeFields desc mc data rest (i + 1) (pos + 2)
        (acc ++ [(desc.getLabelAtIndex i, BinValue.intVal (leNat (readBytes data pos 2)))])
    else if c = 'i' then
      decodeFields desc mc data rest (i + 1) (pos + 4)
        (acc ++ [(desc.getLabelAtIndex i, BinValue.intVal (toSigned 32 (leNat (readBytes data pos 4))))])
    else if c = 'I' then
      decodeFields desc mc data rest (i + 1) (pos + 4)
        (acc ++ [(desc.getLabelAtIndex i, BinValue.intVal (leNat (readBytes data pos 4)))])
    else if c = 'f' then
      let bits := leNat (readBytes data pos 4)
      if isNaN32 bits then
        ([], [(mc, "Corrupt data element found when decoding " ++ desc.m_name ++ " data.")])
      else
        decodeFields desc mc data rest (i + 1) (pos + 4)
          (acc ++ [(desc.getLabelAtIndex i, BinValue.floatBits bits)])
    else if c = 'n' then
      decodeFields desc mc data rest (i + 1) (pos + 4)
        (acc ++ [(desc.getLabelAtIndex i,
          BinValue.strVal (String.mk (((readBytes data pos 4).filter (fun b => b ≠ 0)).map Char.ofNat)))])
    else if c = 'N' then
      decodeFields desc mc data rest (i + 1) (pos + 16)
        (acc ++ [(desc.getLabelAtIndex i,
          BinValue.strVal (String.mk (((readBytes data pos 16).filter (fun b => b ≠ 0)).map Char.ofNat)))])
    else if c = 'Z' then
      decodeFields desc mc data rest (i + 1) (pos + 64)
        (acc ++ [(desc.getLabelAtIndex i,
          BinValue.strVal (String.mk (((readBytes data pos 64).filter (fun b => b ≠ 0)).map Char.ofNat)))])
    else if c = 'c' then
      decodeFields desc mc data rest (i + 1) (pos + 2)
        (acc ++ [(desc.getLabelAtIndex i, BinValue.scaled (toSigned 16 (leNat (readBytes data pos 2))) 100)])
    else if c = 'C' then
      decodeFields desc mc data rest (i + 1) (pos + 2)
        (acc ++ [(desc.getLabelAtIndex i, BinValue.scaled (leNat (readBytes data pos 2)) 100)])
    else if c = 'e' then
      decodeFields desc mc data rest (i + 1) (pos + 4)
        (acc ++ [(desc.getLabelAtIndex i, BinValue.scaled (toSigned 32 (leNat (readBytes data pos 4))) 100)])
    else if c = 'E' then
      decodeFields desc mc data rest (i + 1) (pos + 4)
        (acc ++ [(desc.getLabelAtIndex i, BinValue.scaled (leNat (readBytes data pos 4)) 100)])
    else if c = 'L' then
      decodeFields desc mc data rest (i + 1) (pos + 4)
        (acc ++ [(desc.getLabelAtIndex i, BinValue.scaled (toSigned 32 (leNat (readBytes data pos 4))) 10000000)])
    else if c = 'M' then
      decodeFields desc mc data rest (i + 1) (pos + 1)
        (acc ++ [(desc.getLabelAtIndex i, BinValue.intVal (toSigned 8 (leNat (readBytes data pos 1))))])
    else if c = 'q' then
      decodeFields desc mc data rest (i + 1) (pos + 8)
        (acc ++ [(desc.getLabelAtIndex i, BinValue.intVal (toSigned 64 (leNat (readBytes data pos 8))))])
    else if c = 'Q' then
      decodeFields desc mc data rest (i + 1) (pos + 8)
        (acc ++ [(desc.getLabelAtIndex i, BinValue.intVal (leNat (readBytes data pos 8)))])
    else
      ([], [(mc, "Unknown data type: " ++ String.mk [c] ++ " when decoding " ++ desc.m_name)])

/-- BinLogParser::parseFMTMessage: consume the described id and length
unconditionally, then give up (without rewinding those two bytes) when
fewer than length-5 bytes remain; otherwise read the name, format and
label windows and drop everything up to the cursor.  Returns
(success, new block, new cursor, descriptor). -/
def parseFMTMessage (block : List Nat) (pos : Nat) :
    Bool × List Nat × Nat × typeDescriptor :=
  let id := block.getD pos 0
  let len := block.getD (pos + 1) 0
  let pos2 := pos + 2
  if (block.length : Int) - pos2 < (len : Int) - s_HeaderOffset - 2 then
    (false, block, pos2, { (default : typeDescriptor) with m_ID := id, m_length := len })
  else
    let nameB := (block.drop pos2).take s_FMTNameSize
    let fmtB := (block.drop (pos2 + s_FMTNameSize)).take s_FMTFormatSize
    let lblB := (block.drop (pos2 + s_FMTNameSize + s_FMTFormatSize)).take s_FMTLabelsSize
    let cs := (lblB.takeWhile (fun b => b ≠ 0)).map Char.ofNat
    let labels := if cs.isEmpty then [] else splitAux ',' cs []
    let posF := pos2 + s_FMTNameSize + s_FMTFormatSize + s_FMTLabelsSize
    (true, block.drop posF, 0,
      { m_ID := id, m_length := len, m_name := byteArrayToString nameB,
        m_format := byteArrayToString fmtB, m_labels := labels,
        m_hasTimeStamp := false, m_timeStampIndex := 0 })

/-- BinLogParser::parseDataByDescriptor: give up when fewer than length-3
bytes remain past the cursor; otherwise extract the record body (all
remaining bytes when the declared length is below the header size, as
QByteArray::mid does for a negative length), decode it, and consume the
cursor plus length-3 bytes from the front of the block.  Returns
(success, new block, new cursor, value list, corrupt-data incidents). -/
def parseDataByDescriptor (block : List Nat) (pos : Nat) (desc : typeDescriptor) (mc : Nat) :
    Bool × List Nat × Nat × List NameValuePair × List (Nat × String) :=
  if (block.length : Int) - pos < (desc.m_length : Int) - s_HeaderOffset then
    (false, block, pos, [], [])
  else
    let data :=
      if (desc.m_length : Int) - s_HeaderOffset < 0 then block.drop pos
      else (block.drop pos).take (desc.m_length - s_HeaderOffset)
    let r := decodeFields desc mc data desc.m_format.toList 0 0 []
    (true, block.drop (pos + desc.m_length - s_HeaderOffset), 0, r.1, r.2)

/-- Outcome of one inner-loop iteration of BinLogParser::parse: continue
the inner loop, break it (short read: refill and retry), or abort the
whole parse (fatal sink failure). -/
inductive StepResult where
  | cont : ParseState → StepResult
  | breakLoop : ParseState → StepResult
  | abort : ParseState → StepResult
  deriving DecidableEq, Repr

/-- The FMT branch of the inner loop of BinLogParser::parse: parse the FMT
body, rename GPS TimeMS labels, then either finalize and store (flushing
the deferred queue) when a timestamp convention is active, or run the
timestamp discovery and defer the descriptor. -/
def handleFMT (sink : Sink) (st : ParseState) (pos1 : Nat) : StepResult :=
  let r := parseFMTMessage st.dataBlock pos1
  match r with
  | (false, blk, pos2, _) =>
    StepResult.breakLoop { st with
      dataBlock := blk
      dataPos := pos2
      messageType := s_FMTMessageType }
  | (true, blk, pos2, desc0) =>
    let desc1 := if desc0.m_name = "GPS" then desc0.replaceLabelName "TimeMS" "GPSTimeMS" else desc0
    let stb := { st with dataBlock := blk, dataPos := pos2, messageType := s_FMTMessageType }
    if stb.activeTimestamp.valid then
      let desc2 := desc1.finalize stb.activeTimestamp
      let r2 := extendedStoreDescriptor sink stb desc2
      if r2.2 then StepResult.cont r2.1 else StepResult.abort r2.1
    else
      StepResult.cont (checkForValidTimestamp stb desc1)

/-- The data branch of the inner loop of BinLogParser::parse: for a type
with a registered descriptor decode the record (breaking on a short
read), store nonempty value lists (aborting the parse on sink failure,
then running the vehicle-kind heuristic for generic-so-far PARM rows),
and report empty value lists as corrupt data; types without a registered
descriptor are reported as corrupt data and only their header is
consumed. -/
def handleData (sink : Sink) (st : ParseState) (pos1 mtype : Nat) : StepResult :=
  match descMapLookup st.typeToDescriptorMap mtype with
  | some desc =>
    let r := parseDataByDescriptor st.dataBlock pos1 desc st.messageCounter
    match r with
    | (ok2, blk, pos2, pairs, inc) =>
      let stb := { st with
        dataBlock := blk
        dataPos := pos2
        messageType := mtype
        logLoadingState := { st.logLoadingState with
          corruptData := st.logLoadingState.corruptData ++ inc } }
      if ok2 = false then StepResult.breakLoop stb
      else if 1 ≤ pairs.length then
        let r2 := storeNameValuePairList sink stb pairs desc
        match r2 with
        | (st2, pairs2, rc) =>
          if rc = false then StepResult.abort st2
          else if st2.loadedLogType = MavType.generic ∧ desc.m_name = "PARM" then
            StepResult.cont (detectMavType st2 pairs2)
          else StepResult.cont st2
      else
        StepResult.cont { stb with logLoadingState :=
          stb.logLoadingState.corruptDataRead stb.messageCounter "No values within data message" }
  | none =>
    let msg := "Read data without having a valid format descriptor - Message type is " ++
      toString mtype
    StepResult.cont { st with
      dataPos := pos1
      messageType := mtype
      logLoadingState := st.logLoadingState.corruptDataRead st.messageCounter msg }

/-- One iteration of the inner loop of BinLogParser::parse: try the
header (an invalid header advances the cursor and counts one
no-message byte), then dispatch on the message type. -/
def innerStep (sink : Sink) (st : ParseState) : StepResult :=
  let h := headerIsValid st.dataBlock st.dataPos
  match h with
  | (ok, pos1, mtype) =>
    if ok = false then
      StepResult.cont { st with
        dataPos := pos1
        messageType := mtype
        noMessageBytesCtr := st.noMessageBytesCtr + 1 }
    else if mtype = s_FMTMessageType then handleFMT sink st pos1
    else handleData sink st pos1 mtype

/-- The inner loop of BinLogParser::parse, with explicit fuel: it runs
while more than MIN_HEADER_SIZE bytes remain past the cursor and the stop
flag is unset.  Returns the state paired with the abort flag (true means
the parse returns immediately), or none when the fuel runs out. -/
def innerLoop (sink : Sink) : Nat → ParseState → Option (ParseState × Bool)
  | 0, _ => none
  | Nat.succ n, st =>
    if (st.dataBlock.length : Int) - st.dataPos > s_MinHeaderSize ∧ st.stop = false then
      match innerStep sink st with
      | StepResult.cont st2 => innerLoop sink n st2
      | StepResult.breakLoop st2 => some (st2, false)
      | StepResult.abort st2 => some (st2, true)
    else some (st, false)

/-- The refill step at the top of the outer loop of BinLogParser::parse:
drop the consumed bytes except for the trailing MIN_HEADER_SIZE ones,
append the next chunk of up to 8192 file bytes and reset the cursor. -/
def refillStep (st : ParseState) : ParseState :=
  { st with
    dataBlock :=
      (if s_MinHeaderSize < st.dataPos then st.dataBlock.drop (st.dataPos - s_MinHeaderSize)
       else st.dataBlock) ++ st.file.take 8192
    file := st.file.drop 8192
    dataPos := 0 }

/-- The outer loop of BinLogParser::parse, with explicit fuel: it runs
while the upstream source is not at EOF and the stop flag is unset;
each iteration refills the buffer and runs the inner loop.  Returns the
state paired with the abort flag, or none when the fuel runs out. -/
def outerLoop (sink : Sink) : Nat → ParseState → Option (ParseState × Bool)
  | 0, _ => none
  | Nat.succ n, st =>
    if st.file.isEmpty = false ∧ st.stop = false then
      let st1 := refillStep st
      match innerLoop sink (st1.dataBlock.length + 1) st1 with
      | none => none
      | some (st2, true) => some (st2, true)
      | some (st2, false) => outerLoop sink n st2
    else some (st, false)

/-- BinLogParser::parse: start the sink transaction (failure returns the
empty status at once), run the refill loop, then publish the
no-message-byte count, end the transaction and announce the timestamp
convention to the sink.  An abort inside the loop returns immediately.
The result is the final model state (none only when the loop fuel, sized
to the input, is insufficient, which the theorems never exercise). -/
def parse (sink : Sink) (fileBytes : List Nat) : Option ParseState :=
  let st0 := initialState fileBytes
  if sink.startOk = false then some st0
  else
    match outerLoop sink (fileBytes.length / 8192 + 2) st0 with
    | none => none
    | some (st, true) => some st
    | some (st, false) =>
      let st1 :=
        if 0 < st.noMessageBytesCtr then
          { st with logLoadingState := st.logLoadingState.setNoMessageBytes st.noMessageBytesCtr }
        else st
      if sink.endOk = false then some st1
      else some { st1 with
        sinkSetAllRows := some (true, st1.activeTimestamp.m_name, st1.activeTimestamp.m_divisor) }

/-- The emitted row's timestamp as a raw integer: the value at the
timestamp position (index 0 for a synthetic timestamp, the descriptor's
timestamp index for a native one), converted as readTimeStamp converts it. -/
def rowTimeStamp (desc : typeDescriptor) (pairs : List NameValuePair) : Nat :=
  ((pairs.getD (if desc.hasNoTimestamp then 0 else desc.m_timeStampIndex) default).2).toULongLong

/-- The argument tuple storeDescriptor hands to the sink addType call for
a descriptor under a given active timestamp convention: the descriptor
itself when it carries a timestamp, its synthetic augmentation otherwise. -/
def sinkTypeEntry (ts : timeStampType) (d : typeDescriptor) :
    String × Nat × Nat × String × List String :=
  let d2 := if d.hasNoTimestamp then d.addTimeStampField ts else d
  (d2.m_name, d2.m_ID, d2.m_length, d2.m_format, d2.m_labels)

/-- The state carried by an inner-loop step outcome. -/
def StepResult.state : StepResult → ParseState
  | StepResult.cont st => st
  | StepResult.breakLoop st => st
  | StepResult.abort st => st

/-- Concrete test input construction: NUL-pad a string into an n-byte
field, as the FMT record layout stores name, format and labels. -/
def strBytes (s : String) (n : Nat) : List Nat :=
  ((s.toList.map Char.toNat).take n) ++ List.replicate (n - s.length) 0

/-- Concrete test input construction: a complete 89-byte FMT record
describing (id, len, name, format, labels). -/
def mkFMT (id len : Nat) (name fmt labels : String) : List Nat :=
  [0xA3, 0x95, 0x80, id, len] ++ strBytes name 4 ++ strBytes fmt 16 ++ strBytes labels 64

/-- Concrete test input: a file holding only the first five bytes of an
FMT record describing a type of length 89, then EOF. -/
def truncatedFMTFile : List Nat := [0xA3, 0x95, 0x80, 0x05, 89, 1, 2, 3, 4, 5]

/-- Concrete test input: a file holding exactly one FMT record whose
labels contain TimeUS (it discovers the timestamp convention). -/
def discoveringFMTFile : List Nat := mkFMT 0x81 12 "TEST" "BQ" "X,TimeUS"

/-- Concrete test input: two FMT records (the second flushes the deferred
queue) followed by a data record whose single float field is the quiet
NaN bit pattern 0x7FC00000. -/
def nanFloatFile : List Nat :=
  mkFMT 0x81 15 "TSTA" "Qf" "TimeUS,Val" ++
  mkFMT 0x82 7 "TSTB" "f" "Val" ++
  [0xA3, 0x95, 0x82, 0x00, 0x00, 0xC0, 0x7F]

/-- Concrete test state: the buffer holds the first five bytes of an FMT
record (header, described id 0x05, described length 89) and the remaining
84 record bytes are still unread in the file. -/
def shortReadFMTState : ParseState :=
  { initialState ((mkFMT 0x05 89 "TSTC" "B" "Val").drop 5) with
    dataBlock := [0xA3, 0x95, 0x80, 0x05, 89] }

/-- Concrete test state: the same FMT record fully buffered at once. -/
def fullFMTState : ParseState :=
  { initialState [] with dataBlock := mkFMT 0x05 89 "TSTC" "B" "Val" }

/-- Concrete test descriptor: a one-byte-body type without a timestamp. -/
def descPING : typeDescriptor := ⟨0x82, 4, "PING", "B", ["SEQ"], false, 0⟩

/-- Concrete test state: two garbage bytes 0xA3 0x00 followed by a valid
data record of the registered type 0x82, active timestamp TimeUS. -/
def garbageScanState : ParseState :=
  { initialState [] with
    dataBlock := [0xA3, 0x00, 0xA3, 0x95, 0x82, 7]
    typeToDescriptorMap := [(0x82, descPING)]
    activeTimestamp := ⟨"TimeUS", 1000000⟩ }

/-- Concrete test descriptor: the type described by the first FMT of the
NaN scenario (a native TimeUS timestamp and one float field). -/
def descTSTA : typeDescriptor := ⟨0x81, 15, "TSTA", "Qf", ["TimeUS", "Val"], true, 0⟩

/-- Concrete test descriptor: a single float field and no timestamp. -/
def descTSTB : typeDescriptor := ⟨0x82, 7, "TSTB", "f", ["Val"], false, 0⟩

/-- Concrete test state: descTSTB registered, TimeUS active, and a data
record for it whose float field holds the quiet NaN pattern at the
cursor. -/
def nanStepState : ParseState :=
  { initialState [] with
    dataBlock := [0xA3, 0x95, 0x82, 0x00, 0x00, 0xC0, 0x7F]
    typeToDescriptorMap := [(0x82, descTSTB)]
    activeTimestamp := ⟨"TimeUS", 1000000⟩ }

/-- Concrete test state: TimeUS active and one descriptor waiting in the
deferred queue. -/
def deferredFlushState : ParseState :=
  { initialState [] with
    activeTimestamp := ⟨"TimeUS", 1000000⟩
    descriptorForDeferredStorage := [descTSTA] }

/-- A sink whose addType always fails (models a fatal sink error). -/
def rejectTypeSink : Sink :=
  ⟨true, true, fun _ _ _ _ _ => false, fun _ _ _ => true⟩

/-- Concrete test state: a complete FMT record for descPING buffered and
TimeUS active, used to drive the abort path. -/
def fmtAbortState : ParseState :=
  { initialState [] with
    dataBlock := mkFMT 0x82 4 "PING" "B" "SEQ"
    activeTimestamp := ⟨"TimeUS", 1000000⟩ }

/-- Concrete test state: a state with one registered descriptor and an
empty buffer (the inner loop exits at once). -/
def idleMapState : ParseState :=
  { initialState [] with typeToDescriptorMap := [(0x82, descPING)] }

set_option maxRecDepth 10000

/-- toULongLong of a natural stored as an integer value is the natural
itself. -/
theorem toULongLong_natCast (n : Nat) : (BinValue.intVal (n : Int)).toULongLong = n := by
  simp [BinValue.toULongLong]

/-- The emitted row of storeNameValuePairList carries, at its timestamp
position, exactly the updated last valid timestamp, which never
decreases. -/
theorem storeNVP_ts (sink : Sink) (st : ParseState) (pairs : List NameValuePair)
    (desc : typeDescriptor)
    (h : desc.hasNoTimestamp = false → desc.m_timeStampIndex < pairs.length) :
    rowTimeStamp desc (storeNameValuePairList sink st pairs desc).2.1 =
      (storeNameValuePairList sink st pairs desc).1.lastValidTimeStamp ∧
    st.lastValidTimeStamp ≤ (storeNameValuePairList sink st pairs desc).1.lastValidTimeStamp := by
  unfold storeNameValuePairList
  cases hts : desc.hasNoTimestamp with
  | true =>
    simp only [hts, if_pos]
    cases hrow : sink.addRowOk desc.m_name
        ((st.activeTimestamp.m_name, BinValue.intVal (st.lastValidTimeStamp : Int)) :: pairs)
        st.activeTimestamp.m_name with
    | true =>
      refine ⟨?_, le_refl _⟩
      simp [hrow, rowTimeStamp, hts, toULongLong_natCast]
    | false =>
      refine ⟨?_, le_refl _⟩
      simp [hrow, rowTimeStamp, hts, toULongLong_natCast]
  | false =>
    have hlt := h hts
    simp only [hts, Bool.false_eq_true, if_false]
    unfold readTimeStamp
    by_cases hcmp : st.lastValidTimeStamp ≤ (pairs.getD desc.m_timeStampIndex default).2.toULongLong
    · simp only [hcmp, if_pos]
      cases hrow : sink.addRowOk desc.m_name pairs st.activeTimestamp.m_name with
      | true =>
        refine ⟨?_, hcmp⟩
        simp [hrow, rowTimeStamp, hts]
      | false =>
        refine ⟨?_, hcmp⟩
        simp [hrow, rowTimeStamp, hts]
    · simp only [hcmp, if_false]
      cases hrow : sink.addRowOk desc.m_name (pairs.set desc.m_timeStampIndex
          ((pairs.getD desc.m_timeStampIndex default).1,
            BinValue.intVal (st.lastValidTimeStamp : Int))) st.activeTimestamp.m_name with
      | true =>
        refine ⟨?_, le_refl _⟩
        simp [hrow, rowTimeStamp, hts, List.getD, List.getElem?_set, hlt, toULongLong_natCast]
      | false =>
        refine ⟨?_, le_refl _⟩
        simp [hrow, rowTimeStamp, hts, List.getD, List.getElem?_set, hlt, toULongLong_natCast]

/-- storeDescriptor changes the registry exactly by inserting a valid,
fresh descriptor and leaves it untouched otherwise. -/
theorem storeDescriptor_map_eq (sink : Sink) (st : ParseState) (desc : typeDescriptor) :
    (storeDescriptor sink st desc).1.typeToDescriptorMap =
      if desc.isValid = true ∧ descMapContains st.typeToDescriptorMap desc.m_ID = false
      then descMapInsert st.typeToDescriptorMap desc.m_ID desc
      else st.typeToDescriptorMap := by
  unfold storeDescriptor
  cases hv : desc.isValid with
  | false => simp [hv]
  | true =>
    cases hc : descMapContains st.typeToDescriptorMap desc.m_ID with
    | true => simp [hv, hc]
    | false =>
      simp only [hv, hc, Bool.not_false, if_true, ite_true, true_and]
      by_cases hid : desc.m_ID = s_FMTMessageType
      · simp [hid]
      · simp only [hid, ite_false, if_neg, ne_eq, not_false_eq_true, ite_true]
        split <;> split <;> rfl

/-- Inserting a fresh key preserves the lookups of all present keys. -/
theorem lookup_insert_preserve (m : DescMap) (k id : Nat) (d v : typeDescriptor)
    (hfresh : descMapContains m id = false) (hk : descMapLookup m k = some v) :
    descMapLookup (descMapInsert m id d) k = some v := by
  have hne : id ≠ k := by
    intro he
    subst he
    have hsome : (List.find? (fun e => e.1 == id) m).isSome := by
      unfold descMapLookup at hk
      cases hf : List.find? (fun e => e.1 == id) m with
      | none => rw [hf] at hk; simp at hk
      | some e => simp [hf]
    unfold descMapContains at hfresh
    rw [hfresh] at hsome
    simp at hsome
  unfold descMapLookup descMapInsert at *
  rw [List.find?_cons_of_neg]
  · exact hk
  · simp [hne]

/-- storeDescriptor preserves the registry lookups of present keys. -/
theorem storeDescriptor_preserve (sink : Sink) (st : ParseState) (desc : typeDescriptor)
    (k : Nat) (v : typeDescriptor)
    (hk : descMapLookup st.typeToDescriptorMap k = some v) :
    descMapLookup (storeDescriptor sink st desc).1.typeToDescriptorMap k = some v := by
  rw [storeDescriptor_map_eq]
  split
  · rename_i hcase
    exact lookup_insert_preserve _ _ _ _ _ hcase.2 hk
  · exact hk

/-- extendedStoreDescriptor preserves the registry lookups of present
keys. -/
theorem extendedStore_preserve (sink : Sink) (st : ParseState) (desc : typeDescriptor)
    (k : Nat) (v : typeDescriptor)
    (hk : descMapLookup st.typeToDescriptorMap k = some v) :
    descMapLookup (extendedStoreDescriptor sink st desc).1.typeToDescriptorMap k = some v := by
  unfold extendedStoreDescriptor
  simp only []
  have hfold : ∀ (ds : List typeDescriptor) (acc : ParseState × Bool),
      descMapLookup acc.1.typeToDescriptorMap k = some v →
      descMapLookup (ds.foldl (fun (a : ParseState × Bool) d =>
        let r := storeDescriptor sink a.1 d
        (r.1, a.2 && r.2)) acc).1.typeToDescriptorMap k = some v := by
    intro ds
    induction ds with
    | nil => intro acc h; exact h
    | cons d rest ih =>
      intro acc h
      exact ih _ (storeDescriptor_preserve sink acc.1 d k v h)
  have h1 := hfold st.descriptorForDeferredStorage (st, true) hk
  split
  · exact storeDescriptor_preserve sink _ desc k v h1
  · exact h1

/-- checkForValidTimestamp never touches the registry. -/
theorem checkTs_map (st : ParseState) (d : typeDescriptor) :
    (checkForValidTimestamp st d).typeToDescriptorMap = st.typeToDescriptorMap := rfl

/-- storeNameValuePairList never touches the registry. -/
theorem storeNVP_map (sink : Sink) (st : ParseState) (pairs : List NameValuePair)
    (desc : typeDescriptor) :
    (storeNameValuePairList sink st pairs desc).1.typeToDescriptorMap =
      st.typeToDescriptorMap := by
  unfold storeNameValuePairList readTimeStamp
  by_cases h1 : desc.hasNoTimestamp = true <;>
    by_cases h2 : st.lastValidTimeStamp ≤ (pairs.getD desc.m_timeStampIndex default).2.toULongLong <;>
      simp only [h1, h2, if_true, if_false, ite_true, ite_false, eq_self_iff_true,
        Bool.false_eq_true, iff_false, iff_true, not_false_eq_true] <;>
      split <;> rfl

/-- detectMavType never touches the registry. -/
theorem detectMavType_map (st : ParseState) (pairs : List NameValuePair) :
    (detectMavType st pairs).typeToDescriptorMap = st.typeToDescriptorMap := by
  unfold detectMavType
  simp only []
  rw [apply_ite (fun s : ParseState => s.typeToDescriptorMap)]
  simp

/-- The FMT branch of the inner loop preserves the registry lookups of
present keys. -/
theorem handleFMT_preserve (sink : Sink) (st : ParseState) (pos1 : Nat)
    (k : Nat) (v : typeDescriptor)
    (hk : descMapLookup st.typeToDescriptorMap k = some v) :
    descMapLookup (handleFMT sink st pos1).state.typeToDescriptorMap k = some v := by
  unfold handleFMT
  simp only []
  repeat' split
  all_goals simp only [StepResult.state]
  all_goals first
    | exact hk
    | exact extendedStore_preserve sink _ _ k v hk

/-- The data branch of the inner loop preserves the registry lookups of
present keys. -/
theorem handleData_preserve (sink : Sink) (st : ParseState) (pos1 mtype : Nat)
    (k : Nat) (v : typeDescriptor)
    (hk : descMapLookup st.typeToDescriptorMap k = some v) :
    descMapLookup (handleData sink st pos1 mtype).state.typeToDescriptorMap k = some v := by
  unfold handleData
  simp only []
  repeat' split
  all_goals simp only [StepResult.state]
  all_goals first
    | exact hk
    | (rw [detectMavType_map, storeNVP_map]; exact hk)
    | (rw [storeNVP_map]; exact hk)

/-- One inner-loop iteration preserves the registry lookups of present
keys. -/
theorem innerStep_preserve (sink : Sink) (st : ParseState)
    (k : Nat) (v : typeDescriptor)
    (hk : descMapLookup st.typeToDescriptorMap k = some v) :
    descMapLookup (innerStep sink st).state.typeToDescriptorMap k = some v := by
  unfold innerStep
  simp only []
  repeat' split
  all_goals first
    | exact hk
    | exact handleFMT_preserve sink st _ k v hk
    | exact handleData_preserve sink st _ _ k v hk

/-- The inner loop preserves the registry lookups of present keys. -/
theorem innerLoop_preserve (sink : Sink) (fuel : Nat) :
    ∀ (st : ParseState) (r : ParseState × Bool),
      innerLoop sink fuel st = some r →
      ∀ (k : Nat) (v : typeDescriptor),
        descMapLookup st.typeToDescriptorMap k = some v →
        descMapLookup r.1.typeToDescriptorMap k = some v := by
  induction fuel with
  | zero => intro st r h; simp [innerLoop] at h
  | succ n ih =>
    intro st r h k v hk
    rw [innerLoop] at h
    split at h
    · rcases hstep : innerStep sink st with st2 | st2 | st2 <;> rw [hstep] at h
      · have hp := innerStep_preserve sink st k v hk
        rw [hstep] at hp
        exact ih _ _ h k v hp
      · have hp := innerStep_preserve sink st k v hk
        rw [hstep] at hp
        cases h
        exact hp
      · have hp := innerStep_preserve sink st k v hk
        rw [hstep] at hp
        cases h
        exact hp
    · cases h
      exact hk

/-- The outer loop preserves the registry lookups of present keys. -/
theorem outerLoop_preserve (sink : Sink) (fuel : Nat) :
    ∀ (st : ParseState) (r : ParseState × Bool),
      outerLoop sink fuel st = some r →
      ∀ (k : Nat) (v : typeDescriptor),
        descMapLookup st.typeToDescriptorMap k = some v →
        descMapLookup r.1.typeToDescriptorMap k = some v := by
  induction fuel with
  | zero => intro st r h; simp [outerLoop] at h
  | succ n ih =>
    intro st r h k v hk
    rw [outerLoop] at h
    split at h
    · simp only [] at h
      have hk1 : descMapLookup (refillStep st).typeToDescriptorMap k = some v := hk
      split at h
      · exact absurd h (by simp)
      · rename_i heq
        cases h
        exact innerLoop_preserve sink _ _ _ heq k v hk1
      · rename_i heq
        exact ih _ _ h k v (innerLoop_preserve sink _ _ _ heq k v hk1)
    · cases h
      exact hk

/-- QMap::contains after a fresh insert. -/
theorem descMapContains_insert (m : DescMap) (id : Nat) (d : typeDescriptor) (k : Nat) :
    descMapContains (descMapInsert m id d) k = (id == k || descMapContains m k) := by
  unfold descMapContains descMapInsert
  rw [List.find?_cons]
  cases h : (id == k) with
  | true => simp [h]
  | false => simp [h]

/-- The success path of storeDescriptor for a valid, fresh, non-FMT
descriptor under an all-accepting sink: the registry gains the original
descriptor and the sink receives its (possibly augmented) entry. -/
theorem storeDescriptor_ok (sink : Sink) (st : ParseState) (desc : typeDescriptor)
    (hv : desc.isValid = true)
    (hfresh : descMapContains st.typeToDescriptorMap desc.m_ID = false)
    (hid : desc.m_ID ≠ s_FMTMessageType)
    (hsink : ∀ n i l f lb, sink.addTypeOk n i l f lb = true) :
    storeDescriptor sink st desc =
      ({ st with
          typeToDescriptorMap := descMapInsert st.typeToDescriptorMap desc.m_ID desc
          sinkTypes := st.sinkTypes ++ [sinkTypeEntry st.activeTimestamp desc]
          messageCounter := st.messageCounter + 1 }, true) := by
  unfold storeDescriptor
  simp only [hv, hfresh, hid, Bool.not_false, if_true, ite_true, ne_eq, not_false_eq_true,
    hsink, if_pos]
  rfl

/-- Folding storeDescriptor over a list of valid, fresh, non-FMT
descriptors with pairwise-distinct ids under an all-accepting sink
succeeds, forwards the sink entries in list order, and registers exactly
the listed ids on top of the existing registry. -/
theorem foldStore_ok (sink : Sink) (hsink : ∀ n i l f lb, sink.addTypeOk n i l f lb = true)
    (ds : List typeDescriptor) :
    ∀ (st : ParseState),
      (∀ d ∈ ds, d.isValid = true) →
      (∀ d ∈ ds, d.m_ID ≠ s_FMTMessageType) →
      (∀ d ∈ ds, descMapContains st.typeToDescriptorMap d.m_ID = false) →
      ds.Pairwise (fun a b => a.m_ID ≠ b.m_ID) →
      ((ds.foldl (fun (a : ParseState × Bool) d =>
          let r2 := storeDescriptor sink a.1 d
          (r2.1, a.2 && r2.2)) (st, true)).2 = true ∧
       (ds.foldl (fun (a : ParseState × Bool) d =>
          let r2 := storeDescriptor sink a.1 d
          (r2.1, a.2 && r2.2)) (st, true)).1.sinkTypes =
          st.sinkTypes ++ ds.map (sinkTypeEntry st.activeTimestamp) ∧
       (ds.foldl (fun (a : ParseState × Bool) d =>
          let r2 := storeDescriptor sink a.1 d
          (r2.1, a.2 && r2.2)) (st, true)).1.activeTimestamp = st.activeTimestamp ∧
       (ds.foldl (fun (a : ParseState × Bool) d =>
          let r2 := storeDescriptor sink a.1 d
          (r2.1, a.2 && r2.2)) (st, true)).1.descriptorForDeferredStorage =
          st.descriptorForDeferredStorage ∧
       (∀ k, descMapContains (ds.foldl (fun (a : ParseState × Bool) d =>
          let r2 := storeDescriptor sink a.1 d
          (r2.1, a.2 && r2.2)) (st, true)).1.typeToDescriptorMap k = true ↔
          (descMapContains st.typeToDescriptorMap k = true ∨ k ∈ ds.map typeDescriptor.m_ID))) := by
  induction ds with
  | nil =>
    intro st _ _ _ _
    refine ⟨rfl, by simp, rfl, rfl, ?_⟩
    intro k
    simp
  | cons d0 rest ih =>
    intro st hv hnf hfresh hpw
    rw [List.foldl_cons]
    have hstep := storeDescriptor_ok sink st d0 (hv d0 (by simp))
      (hfresh d0 (by simp)) (hnf d0 (by simp)) hsink
    simp only [hstep]
    set st1 : ParseState := { st with
      typeToDescriptorMap := descMapInsert st.typeToDescriptorMap d0.m_ID d0
      sinkTypes := st.sinkTypes ++ [sinkTypeEntry st.activeTimestamp d0]
      messageCounter := st.messageCounter + 1 } with hst1
    have hvr : ∀ d ∈ rest, d.isValid = true := fun d hd => hv d (by simp [hd])
    have hnfr : ∀ d ∈ rest, d.m_ID ≠ s_FMTMessageType := fun d hd => hnf d (by simp [hd])
    have hpwr : rest.Pairwise (fun a b => a.m_ID ≠ b.m_ID) := (List.pairwise_cons.mp hpw).2
    have hne0 : ∀ d ∈ rest, d0.m_ID ≠ d.m_ID := (List.pairwise_cons.mp hpw).1
    have hfreshr : ∀ d ∈ rest, descMapContains st1.typeToDescriptorMap d.m_ID = false := by
      intro d hd
      rw [hst1]
      simp only []
      rw [descMapContains_insert]
      have h1 : (d0.m_ID == d.m_ID) = false := by
        simp [hne0 d hd]
      rw [h1, hfresh d (by simp [hd])]
      rfl
    obtain ⟨r2, rsink, rts, rdef, rcont⟩ := ih st1 hvr hnfr hfreshr hpwr
    refine ⟨?_, ?_, ?_, ?_, ?_⟩
    · simpa [Bool.true_and] using r2
    · have hx := rsink
      rw [hst1] at hx
      simp only [List.map_cons] at hx ⊢
      rw [show (Bool.true && true) = true from rfl] at *
      simpa [List.append_assoc, Bool.true_and] using hx
    · simpa [hst1, Bool.true_and] using rts
    · simpa [hst1, Bool.true_and] using rdef
    · intro k
      have hx := rcont k
      rw [hst1] at hx
      simp only [descMapContains_insert] at hx
      simp only [Bool.true_and] at hx ⊢
      rw [hx]
      simp only [Bool.or_eq_true, beq_iff_eq, List.map_cons, List.mem_cons]
      constructor
      · rintro ((h | h) | h)
        · right; left; exact h.symm
        · left; exact h
        · right; right; exact h
      · rintro (h | h | h)
        · left; right; exact h
        · left; left; exact h.symm
        · right; exact h

/-- C1 (code_bug evidence): after a short read inside parseFMTMessage the
cursor stands five bytes past the header start, and the refill step of
the outer loop keeps only the trailing three bytes, dropping the two
start bytes 0xA3 0x95; when the remaining 84 record bytes then arrive,
re-parsing finds no valid header and scans the whole record away as
no-message bytes, so the FMT record is lost (registry and deferred queue
stay empty), whereas the same record fully buffered at once is parsed
and deferred.  The claim says re-parsing resumes at the position before
the consumed header so that the record can be completed; for FMT records
the code loses it instead (for data records the cursor is only three
bytes past the header start and the retained bytes do restore it). -/
theorem claimC1_fmt_short_read_loses_record :
    ((innerLoop alwaysOkSink 10 shortReadFMTState).map
        (fun r => (r.1.dataPos, r.1.dataBlock, r.2)) =
      some (5, [0xA3, 0x95, 0x80, 0x05, 89], false)) ∧
    ((innerLoop alwaysOkSink 10 shortReadFMTState).bind (fun r =>
        (innerLoop alwaysOkSink ((refillStep r.1).dataBlock.length + 1) (refillStep r.1)).map
          (fun r2 =>
            ((refillStep r.1).dataBlock.take 3, r2.1.typeToDescriptorMap.length,
             r2.1.descriptorForDeferredStorage.length, r2.1.noMessageBytesCtr, r2.2))) =
      some ([0x80, 0x05, 89], 0, 0, 84, false)) ∧
    ((innerLoop alwaysOkSink 100 fullFMTState).map (fun r =>
        (r.1.descriptorForDeferredStorage.length, r.1.noMessageBytesCtr, r.2)) =
      some (1, 0, false)) := by
  refine ⟨by decide, by decide, by decide⟩

/-- C2 (counterexample): a parse of a single FMT record whose labels
contain TimeUS establishes the active timestamp convention, but nothing
is submitted to the registry or the sink at that moment: the descriptor
only joins the deferred queue, against the claim that establishment
flushes the queue and submits the discovering descriptor. -/
theorem claimC2_no_flush_at_discovery :
    (parse alwaysOkSink discoveringFMTFile).map (fun st =>
        (st.activeTimestamp.m_name, st.typeToDescriptorMap.length, st.sinkTypes.length,
         st.descriptorForDeferredStorage.length)) =
      some ("TimeUS", 0, 0, 1) := by decide

/-- C2 (amended): the deferred queue (which by then holds the discovering
descriptor as its last element) is flushed by the next successfully
parsed FMT while the convention is active: extendedStoreDescriptor
submits every deferred descriptor in original arrival order and then the
triggering descriptor, clearing the queue; and a sink addType failure
inside the flush makes the FMT branch abort, which the inner loop turns
into an immediate abort of the parse. -/
theorem claimC2_deferred_flush_on_next_fmt :
    (∀ (sink : Sink) (st : ParseState) (desc : typeDescriptor),
      (∀ n i l f lb, sink.addTypeOk n i l f lb = true) →
      (∀ d ∈ st.descriptorForDeferredStorage ++ [desc], d.isValid = true) →
      (∀ d ∈ st.descriptorForDeferredStorage ++ [desc], d.m_ID ≠ s_FMTMessageType) →
      (∀ d ∈ st.descriptorForDeferredStorage ++ [desc],
        descMapContains st.typeToDescriptorMap d.m_ID = false) →
      (st.descriptorForDeferredStorage ++ [desc]).Pairwise (fun a b => a.m_ID ≠ b.m_ID) →
      (extendedStoreDescriptor sink st desc).2 = true ∧
      (extendedStoreDescriptor sink st desc).1.descriptorForDeferredStorage = [] ∧
      (extendedStoreDescriptor sink st desc).1.sinkTypes =
        st.sinkTypes ++ (st.descriptorForDeferredStorage ++ [desc]).map
          (sinkTypeEntry st.activeTimestamp)) ∧
    (∀ (sink : Sink) (st : ParseState) (pos1 : Nat) (blk : List Nat) (p2 : Nat)
        (desc0 : typeDescriptor) (st2 : ParseState),
      parseFMTMessage st.dataBlock pos1 = (true, blk, p2, desc0) →
      st.activeTimestamp.valid = true →
      extendedStoreDescriptor sink
          { st with dataBlock := blk, dataPos := p2, messageType := s_FMTMessageType }
          ((if desc0.m_name = "GPS" then desc0.replaceLabelName "TimeMS" "GPSTimeMS"
            else desc0).finalize st.activeTimestamp) = (st2, false) →
      handleFMT sink st pos1 = StepResult.abort st2) ∧
    (∀ (sink : Sink) (n : Nat) (st s : ParseState),
      ((st.dataBlock.length : Int) - st.dataPos > s_MinHeaderSize) → st.stop = false →
      innerStep sink st = StepResult.abort s →
      innerLoop sink (n + 1) st = some (s, true)) := by
  refine ⟨?_, ?_, ?_⟩
  · intro sink st desc hsink hv hnf hfresh hpw
    have hv0 : ∀ d ∈ st.descriptorForDeferredStorage, d.isValid = true :=
      fun d hd => hv d (by simp [hd])
    have hnf0 : ∀ d ∈ st.descriptorForDeferredStorage, d.m_ID ≠ s_FMTMessageType :=
      fun d hd => hnf d (by simp [hd])
    have hfresh0 : ∀ d ∈ st.descriptorForDeferredStorage,
        descMapContains st.typeToDescriptorMap d.m_ID = false :=
      fun d hd => hfresh d (by simp [hd])
    have hpw0 : st.descriptorForDeferredStorage.Pairwise (fun a b => a.m_ID ≠ b.m_ID) :=
      (List.pairwise_append.mp hpw).1
    have hsep : ∀ d ∈ st.descriptorForDeferredStorage, d.m_ID ≠ desc.m_ID := by
      intro d hd
      exact (List.pairwise_append.mp hpw).2.2 d hd desc (by simp)
    obtain ⟨r2, rsink, rts, rdef, rcont⟩ :=
      foldStore_ok sink hsink st.descriptorForDeferredStorage st hv0 hnf0 hfresh0 hpw0
    unfold extendedStoreDescriptor
    simp only [r2, if_pos, ite_true]
    have hfreshD : descMapContains
        (st.descriptorForDeferredStorage.foldl (fun (a : ParseState × Bool) d =>
          let r2 := storeDescriptor sink a.1 d
          (r2.1, a.2 && r2.2)) (st, true)).1.typeToDescriptorMap desc.m_ID = false := by
      rcases hb : descMapContains (st.descriptorForDeferredStorage.foldl
          (fun (a : ParseState × Bool) d =>
            let r2 := storeDescriptor sink a.1 d
            (r2.1, a.2 && r2.2)) (st, true)).1.typeToDescriptorMap desc.m_ID with _ | _
      · rfl
      · exfalso
        have hm := (rcont desc.m_ID).mp hb
        rcases hm with h | h
        · rw [hfresh desc (by simp)] at h
          exact absurd h (by simp)
        · obtain ⟨a, ha, he⟩ := List.mem_map.mp h
          exact hsep a ha he
    have hstore := storeDescriptor_ok sink
      { (st.descriptorForDeferredStorage.foldl (fun (a : ParseState × Bool) d =>
          let r2 := storeDescriptor sink a.1 d
          (r2.1, a.2 && r2.2)) (st, true)).1 with descriptorForDeferredStorage := [] }
      desc (hv desc (by simp)) (by simpa using hfreshD) (hnf desc (by simp)) hsink
    simp only [hstore]
    refine ⟨trivial, trivial, ?_⟩
    rw [rsink, rts]
    simp [List.map_append, List.append_assoc]
  · intro sink st pos1 blk p2 desc0 st2 hp hvalid hext
    unfold handleFMT
    simp only [hp]
    have hv2 : ({ st with dataBlock := blk, dataPos := p2, messageType := s_FMTMessageType } : ParseState).activeTimestamp.valid = true := hvalid
    simp only [hv2, if_pos, ite_true, hext]
    simp
  · intro sink n st s h1 h2 hstep
    rw [innerLoop]
    rw [if_pos ⟨h1, h2⟩]
    rw [hstep]

/-- C2 witness: concrete instances of the flush-order part (one deferred
descriptor plus the triggering one under the all-accepting sink) and of
the abort parts (a sink that rejects addType makes the FMT branch, and
with it the inner loop, abort). -/
theorem claimC2_deferred_flush_witness :
    ((extendedStoreDescriptor alwaysOkSink deferredFlushState descTSTB).2 = true ∧
     (extendedStoreDescriptor alwaysOkSink deferredFlushState descTSTB).1.descriptorForDeferredStorage = [] ∧
     (extendedStoreDescriptor alwaysOkSink deferredFlushState descTSTB).1.sinkTypes =
       deferredFlushState.sinkTypes ++
         (deferredFlushState.descriptorForDeferredStorage ++ [descTSTB]).map
           (sinkTypeEntry deferredFlushState.activeTimestamp)) ∧
    handleFMT rejectTypeSink fmtAbortState 3 = StepResult.abort
      (extendedStoreDescriptor rejectTypeSink
        { fmtAbortState with dataBlock := [], dataPos := 0, messageType := s_FMTMessageType }
        ((if descPING.m_name = "GPS" then descPING.replaceLabelName "TimeMS" "GPSTimeMS"
          else descPING).finalize fmtAbortState.activeTimestamp)).1 ∧
    innerLoop rejectTypeSink 1 fmtAbortState = some
      ((extendedStoreDescriptor rejectTypeSink
        { fmtAbortState with dataBlock := [], dataPos := 0, messageType := s_FMTMessageType }
        ((if descPING.m_name = "GPS" then descPING.replaceLabelName "TimeMS" "GPSTimeMS"
          else descPING).finalize fmtAbortState.activeTimestamp)).1, true) := by
  refine ⟨claimC2_deferred_flush_on_next_fmt.1 alwaysOkSink deferredFlushState descTSTB
      (fun _ _ _ _ _ => rfl) (by decide) (by decide) (by decide) (by decide),
    claimC2_deferred_flush_on_next_fmt.2.1 rejectTypeSink fmtAbortState 3 [] 0 descPING _
      (by decide) (by decide) (by decide),
    claimC2_deferred_flush_on_next_fmt.2.2 rejectTypeSink 0 fmtAbortState _
      (by decide) rfl (by decide)⟩

/-- C3 (counterexample): parsing a stream whose last record holds a NaN
float discards the record (no row reaches the sink) but records TWO
corrupt-data incidents, not one: the NaN incident from the decoder and a
"No values within data message" incident from the parse loop, because
the cleared value list is indistinguishable from an empty record. -/
theorem claimC3_two_corrupt_data_incidents :
    (parse alwaysOkSink nanFloatFile).map (fun st =>
        (st.logLoadingState.corruptData, st.sinkRows.length, st.logLoadingState.validRows)) =
      some ([(2, "Corrupt data element found when decoding TSTB data."),
             (2, "No values within data message")], 0, 0) := by decide

/-- C3 (amended): a NaN float clears the accumulated list and stops the
decode with the corrupt-element incident, and the surrounding data step
then emits no row and ends with exactly two corrupt-data incidents for
the record: the NaN one and the no-values one. -/
theorem claimC3_nan_discard_two_incidents :
    (∀ (desc : typeDescriptor) (mc : Nat) (data : List Nat) (fmtRest : List Char)
        (i pos : Nat) (acc : List NameValuePair),
      isNaN32 (leNat (readBytes data pos 4)) = true →
      decodeFields desc mc data ('f' :: fmtRest) i pos acc =
        ([], [(mc, "Corrupt data element found when decoding " ++ desc.m_name ++ " data.")])) ∧
    (∀ (sink : Sink) (st : ParseState) (pos1 mtype : Nat) (desc : typeDescriptor)
        (blk : List Nat) (p2 : Nat) (inc : Nat × String),
      descMapLookup st.typeToDescriptorMap mtype = some desc →
      parseDataByDescriptor st.dataBlock pos1 desc st.messageCounter = (true, blk, p2, [], [inc]) →
      ∃ st2, handleData sink st pos1 mtype = StepResult.cont st2 ∧
        st2.logLoadingState.corruptData = st.logLoadingState.corruptData ++
          [inc, (st.messageCounter, "No values within data message")] ∧
        st2.sinkRows = st.sinkRows ∧
        st2.logLoadingState.validRows = st.logLoadingState.validRows) := by
  constructor
  · intro desc mc data fmtRest i pos acc hnan
    unfold decodeFields
    simp [hnan]
  · intro sink st pos1 mtype desc blk p2 inc hlook hparse
    unfold handleData
    rw [hlook]
    simp only [hparse]
    refine ⟨_, rfl, ?_, rfl, rfl⟩
    simp [AP2DataPlotStatus.corruptDataRead]

/-- C3 witness: the decoder clause at the NaN bit pattern 0x7FC00000 and
the data-step clause at a concrete buffered NaN record. -/
theorem claimC3_nan_discard_witness :
    (decodeFields descTSTB 0 [0x00, 0x00, 0xC0, 0x7F] ['f'] 0 0 [] =
      ([], [(0, "Corrupt data element found when decoding " ++ descTSTB.m_name ++ " data.")])) ∧
    (∃ st2, handleData alwaysOkSink nanStepState 3 0x82 = StepResult.cont st2 ∧
      st2.logLoadingState.corruptData = nanStepState.logLoadingState.corruptData ++
        [(0, "Corrupt data element found when decoding TSTB data."),
         (nanStepState.messageCounter, "No values within data message")] ∧
      st2.sinkRows = nanStepState.sinkRows ∧
      st2.logLoadingState.validRows = nanStepState.logLoadingState.validRows) := by
  refine ⟨claimC3_nan_discard_two_incidents.1 descTSTB 0 [0x00, 0x00, 0xC0, 0x7F] [] 0 0 []
      (by decide),
    claimC3_nan_discard_two_incidents.2 alwaysOkSink nanStepState 3 0x82 descTSTB [] 0
      (0, "Corrupt data element found when decoding TSTB data.") (by decide) (by rfl)⟩

/-- C4 (confirmed): readTimeStamp keeps a non-decreasing raw timestamp
and updates the last valid timestamp; a decreasing one leaves the last
valid timestamp unchanged, overwrites the value at the timestamp index
with it and records a corrupt-time incident; and consequently, for any
two consecutively emitted rows, the timestamp carried by the second row
is at least the timestamp carried by the first. -/
theorem claimC4_timestamp_monotonicity :
    (∀ (st : ParseState) (pairs : List NameValuePair) (tsIdx : Nat),
      (st.lastValidTimeStamp ≤ (pairs.getD tsIdx default).2.toULongLong →
        readTimeStamp st pairs tsIdx =
          ({ st with lastValidTimeStamp := (pairs.getD tsIdx default).2.toULongLong }, pairs)) ∧
      ((pairs.getD tsIdx default).2.toULongLong < st.lastValidTimeStamp →
        (readTimeStamp st pairs tsIdx).1.lastValidTimeStamp = st.lastValidTimeStamp ∧
        (tsIdx < pairs.length →
          (readTimeStamp st pairs tsIdx).2.getD tsIdx default =
            ((pairs.getD tsIdx default).1, BinValue.intVal (st.lastValidTimeStamp : Int))) ∧
        (readTimeStamp st pairs tsIdx).1.logLoadingState.corruptTime.length =
          st.logLoadingState.corruptTime.length + 1)) ∧
    (∀ (sink : Sink) (st : ParseState) (pairs1 pairs2 : List NameValuePair)
        (desc1 desc2 : typeDescriptor),
      (desc1.hasNoTimestamp = false → desc1.m_timeStampIndex < pairs1.length) →
      (desc2.hasNoTimestamp = false → desc2.m_timeStampIndex < pairs2.length) →
      rowTimeStamp desc1 (storeNameValuePairList sink st pairs1 desc1).2.1 ≤
        rowTimeStamp desc2 (storeNameValuePairList sink
          (storeNameValuePairList sink st pairs1 desc1).1 pairs2 desc2).2.1) := by
  constructor
  · intro st pairs tsIdx
    constructor
    · intro hle
      unfold readTimeStamp
      simp only []
      rw [if_pos hle]
    · intro hlt
      unfold readTimeStamp
      simp only []
      rw [if_neg (by omega)]
      refine ⟨rfl, ?_, ?_⟩
      · intro hb
        simp [List.getD, List.getElem?_set, hb]
      · simp [AP2DataPlotStatus.corruptTimeRead]
  · intro sink st pairs1 pairs2 desc1 desc2 h1 h2
    obtain ⟨e1, le1⟩ := storeNVP_ts sink st pairs1 desc1 h1
    obtain ⟨e2, le2⟩ := storeNVP_ts sink (storeNameValuePairList sink st pairs1 desc1).1 pairs2 desc2 h2
    rw [e1, e2]
    exact le2

/-- C4 witness: a concrete increasing native timestamp and two concrete
consecutive synthetic-timestamp rows. -/
theorem claimC4_timestamp_monotonicity_witness :
    (readTimeStamp (initialState []) [("TimeUS", BinValue.intVal 5)] 0 =
      ({ initialState [] with
          lastValidTimeStamp :=
            (([("TimeUS", BinValue.intVal 5)].getD 0 default).2).toULongLong },
        [("TimeUS", BinValue.intVal 5)])) ∧
    rowTimeStamp descPING
        (storeNameValuePairList alwaysOkSink (initialState [])
          [("SEQ", BinValue.intVal 7)] descPING).2.1 ≤
      rowTimeStamp descPING
        (storeNameValuePairList alwaysOkSink
          (storeNameValuePairList alwaysOkSink (initialState [])
            [("SEQ", BinValue.intVal 7)] descPING).1
          [("SEQ", BinValue.intVal 8)] descPING).2.1 :=
  ⟨(claimC4_timestamp_monotonicity.1 (initialState []) [("TimeUS", BinValue.intVal 5)] 0).1
      (by decide),
   claimC4_timestamp_monotonicity.2 alwaysOkSink (initialState [])
      [("SEQ", BinValue.intVal 7)] [("SEQ", BinValue.intVal 8)] descPING descPING
      (by decide) (by decide)⟩

/-- C5 (counterexample): a header attempt on 0xA3 followed by a non-0x95
byte advances the cursor by two bytes, not one or three; and over the
two-byte garbage run 0xA3 0x00 preceding a valid record the parser
counts only one no-message byte although two bytes were discarded, so
no_message_bytes does not equal the byte count between records. -/
theorem claimC5_two_byte_advance_counts_one :
    (headerIsValid [0xA3, 0x00] 0 = (false, 2, 0)) ∧ (2 - 0 ≠ 1 ∧ 2 - 0 ≠ 3) ∧
    ((innerLoop alwaysOkSink 10 garbageScanState).map (fun r =>
        (r.1.noMessageBytesCtr, r.1.sinkRows.length, r.2)) = some (1, 1, false)) := by
  refine ⟨by decide, by decide, by decide⟩

/-- C5 (amended): a header attempt advances the cursor by one or two
bytes on Invalid (ending exactly one byte past the first mismatched
position: one byte when the first byte is not 0xA3, two when 0xA3 is
followed by a non-0x95 byte) or three bytes on Valid; each invalid
attempt increments no_message_bytes by exactly one, so no_message_bytes
counts failed header attempts, which can be fewer than the garbage
bytes. -/
theorem claimC5_header_cursor_advance :
    (∀ (block : List Nat) (pos : Nat),
      (block.getD pos 0 = s_StartByte1 → block.getD (pos + 1) 0 = s_StartByte2 →
        headerIsValid block pos = (true, pos + 3, block.getD (pos + 2) 0)) ∧
      (block.getD pos 0 ≠ s_StartByte1 → headerIsValid block pos = (false, pos + 1, 0)) ∧
      (block.getD pos 0 = s_StartByte1 → block.getD (pos + 1) 0 ≠ s_StartByte2 →
        headerIsValid block pos = (false, pos + 2, 0)) ∧
      ((headerIsValid block pos).2.1 = pos + 1 ∨ (headerIsValid block pos).2.1 = pos + 2 ∨
        (headerIsValid block pos).2.1 = pos + 3)) ∧
    (∀ (sink : Sink) (st : ParseState) (pos1 mtype : Nat),
      headerIsValid st.dataBlock st.dataPos = (false, pos1, mtype) →
      innerStep sink st = StepResult.cont { st with
        dataPos := pos1
        messageType := mtype
        noMessageBytesCtr := st.noMessageBytesCtr + 1 }) := by
  constructor
  · intro block pos
    refine ⟨?_, ?_, ?_, ?_⟩
    · intro h1 h2
      rw [List.getD_eq_getElem?_getD] at h1 h2
      unfold headerIsValid
      simp [List.getD_eq_getElem?_getD, h1, h2]
    · intro h1
      rw [ne_eq, List.getD_eq_getElem?_getD] at h1
      unfold headerIsValid
      simp [List.getD_eq_getElem?_getD, h1]
    · intro h1 h2
      rw [List.getD_eq_getElem?_getD] at h1
      rw [ne_eq, List.getD_eq_getElem?_getD] at h2
      unfold headerIsValid
      simp [List.getD_eq_getElem?_getD, h1, h2]
    · unfold headerIsValid
      split
      · split
        · simp
        · simp
      · simp
  · intro sink st pos1 mtype hh
    unfold innerStep
    simp only []
    rw [hh]
    simp

/-- C5 witness: the three header shapes at concrete bytes and the
no-message counting step at the concrete garbage state. -/
theorem claimC5_header_cursor_advance_witness :
    (headerIsValid [0xA3, 0x95, 7] 0 = (true, 0 + 3, ([0xA3, 0x95, 7] : List Nat).getD 2 0)) ∧
    (headerIsValid [0, 1] 0 = (false, 0 + 1, 0)) ∧
    (headerIsValid [0xA3, 1] 0 = (false, 0 + 2, 0)) ∧
    (innerStep alwaysOkSink garbageScanState = StepResult.cont { garbageScanState with
        dataPos := 2
        messageType := 0
        noMessageBytesCtr := garbageScanState.noMessageBytesCtr + 1 }) :=
  ⟨(claimC5_header_cursor_advance.1 [0xA3, 0x95, 7] 0).1 (by decide) (by decide),
   (claimC5_header_cursor_advance.1 [0, 1] 0).2.1 (by decide),
   (claimC5_header_cursor_advance.1 [0xA3, 1] 0).2.2.1 (by decide) (by decide),
   claimC5_header_cursor_advance.2 alwaysOkSink garbageScanState 2 0 (by decide)⟩

/-- C6 (confirmed): when a valid, fresh, non-FMT descriptor lacks the
active timestamp, the registry keeps the original descriptor (so the
synthetic field is never read from the wire) while the sink addType call
receives the augmented copy (timestamp label prepended to the labels, Q
prepended to the format, length grown by 8); at emission time the last
valid timestamp is prepended to the value list, so the emitted row
carries exactly one field labeled with the active timestamp name. -/
theorem claimC6_synthetic_timestamp_field (sink : Sink) (st : ParseState)
    (desc : typeDescriptor) (pairs : List NameValuePair)
    (hv : desc.isValid = true)
    (hfresh : descMapContains st.typeToDescriptorMap desc.m_ID = false)
    (hid : desc.m_ID ≠ s_FMTMessageType)
    (hnots : desc.hasNoTimestamp = true)
    (hlab : ∀ p ∈ pairs, p.1 ≠ st.activeTimestamp.m_name) :
    descMapLookup (storeDescriptor sink st desc).1.typeToDescriptorMap desc.m_ID = some desc ∧
    (storeDescriptor sink st desc).1.sinkTypes = st.sinkTypes ++
      [(desc.m_name, desc.m_ID, desc.m_length + 8,
        String.mk ('Q' :: desc.m_format.toList), st.activeTimestamp.m_name :: desc.m_labels)] ∧
    (storeNameValuePairList sink st pairs desc).2.1 =
      (st.activeTimestamp.m_name, BinValue.intVal (st.lastValidTimeStamp : Int)) :: pairs ∧
    ((storeNameValuePairList sink st pairs desc).2.1.filter
        (fun p => p.1 == st.activeTimestamp.m_name)).length = 1 := by
  refine ⟨?_, ?_, ?_, ?_⟩
  · unfold storeDescriptor
    simp only [hv, hfresh, hid, if_pos, Bool.not_false, if_true, ite_true, ne_eq,
      not_false_eq_true]
    cases hadd : sink.addTypeOk (if desc.hasNoTimestamp then desc.addTimeStampField st.activeTimestamp else desc).m_name
        (if desc.hasNoTimestamp then desc.addTimeStampField st.activeTimestamp else desc).m_ID
        (if desc.hasNoTimestamp then desc.addTimeStampField st.activeTimestamp else desc).m_length
        (if desc.hasNoTimestamp then desc.addTimeStampField st.activeTimestamp else desc).m_format
        (if desc.hasNoTimestamp then desc.addTimeStampField st.activeTimestamp else desc).m_labels with
    | true => simp [hadd, descMapLookup, descMapInsert]
    | false => simp [hadd, descMapLookup, descMapInsert]
  · unfold storeDescriptor
    simp only [hv, hfresh, hid, if_pos, Bool.not_false, if_true, ite_true, ne_eq,
      not_false_eq_true]
    cases hadd : sink.addTypeOk (if desc.hasNoTimestamp then desc.addTimeStampField st.activeTimestamp else desc).m_name
        (if desc.hasNoTimestamp then desc.addTimeStampField st.activeTimestamp else desc).m_ID
        (if desc.hasNoTimestamp then desc.addTimeStampField st.activeTimestamp else desc).m_length
        (if desc.hasNoTimestamp then desc.addTimeStampField st.activeTimestamp else desc).m_format
        (if desc.hasNoTimestamp then desc.addTimeStampField st.activeTimestamp else desc).m_labels with
    | true => simp [hadd, hnots, typeDescriptor.addTimeStampField]
    | false => simp [hadd, hnots, typeDescriptor.addTimeStampField]
  · unfold storeNameValuePairList
    simp only [hnots, if_pos, ite_true]
    cases hrow : sink.addRowOk desc.m_name
        ((st.activeTimestamp.m_name, BinValue.intVal (st.lastValidTimeStamp : Int)) :: pairs)
        st.activeTimestamp.m_name with
    | true => simp [hrow]
    | false => simp [hrow]
  · unfold storeNameValuePairList
    simp only [hnots, if_pos, ite_true]
    have hrest : pairs.filter (fun p => p.1 == st.activeTimestamp.m_name) = [] := by
      rw [List.filter_eq_nil_iff]
      intro p hp
      simpa using hlab p hp
    cases hrow : sink.addRowOk desc.m_name
        ((st.activeTimestamp.m_name, BinValue.intVal (st.lastValidTimeStamp : Int)) :: pairs)
        st.activeTimestamp.m_name with
    | true => simp [hrow, List.filter_cons, hrest]
    | false => simp [hrow, List.filter_cons, hrest]

/-- C6 witness: descPING (no timestamp) stored under an active TimeUS
convention, and one of its rows emitted. -/
theorem claimC6_synthetic_timestamp_field_witness :
    descMapLookup (storeDescriptor alwaysOkSink deferredFlushState descPING).1.typeToDescriptorMap
        descPING.m_ID = some descPING ∧
    (storeDescriptor alwaysOkSink deferredFlushState descPING).1.sinkTypes =
      deferredFlushState.sinkTypes ++
        [(descPING.m_name, descPING.m_ID, descPING.m_length + 8,
          String.mk ('Q' :: descPING.m_format.toList),
          deferredFlushState.activeTimestamp.m_name :: descPING.m_labels)] ∧
    (storeNameValuePairList alwaysOkSink deferredFlushState
        [("SEQ", BinValue.intVal 7)] descPING).2.1 =
      (deferredFlushState.activeTimestamp.m_name,
        BinValue.intVal (deferredFlushState.lastValidTimeStamp : Int)) ::
          [("SEQ", BinValue.intVal 7)] ∧
    ((storeNameValuePairList alwaysOkSink deferredFlushState
        [("SEQ", BinValue.intVal 7)] descPING).2.1.filter
          (fun p => p.1 == deferredFlushState.activeTimestamp.m_name)).length = 1 :=
  claimC6_synthetic_timestamp_field alwaysOkSink deferredFlushState descPING
    [("SEQ", BinValue.intVal 7)] (by decide) (by decide) (by decide) (by decide) (by decide)

/-- C7 (confirmed): a candidate descriptor is inserted into the registry
iff it passes isValid and its id is not already present; a valid
duplicate leaves the registry unchanged and records a corrupt-FMT
incident (the first descriptor wins); and both the inner and the outer
loop preserve every present registry entry, so a stored descriptor is
never removed or mutated for the remainder of the parse. -/
theorem claimC7_registry_insertion_policy :
    (∀ (sink : Sink) (st : ParseState) (desc : typeDescriptor),
      (storeDescriptor sink st desc).1.typeToDescriptorMap =
        if desc.isValid = true ∧ descMapContains st.typeToDescriptorMap desc.m_ID = false
        then descMapInsert st.typeToDescriptorMap desc.m_ID desc
        else st.typeToDescriptorMap) ∧
    (∀ (sink : Sink) (st : ParseState) (desc : typeDescriptor),
      desc.isValid = true → descMapContains st.typeToDescriptorMap desc.m_ID = true →
      (storeDescriptor sink st desc).1.logLoadingState.corruptFMT =
        st.logLoadingState.corruptFMT ++
          [(st.messageCounter,
            desc.m_name ++ " format data: Doubled entry found. Using the first one.")]) ∧
    (∀ (sink : Sink) (fuel : Nat) (st : ParseState) (r : ParseState × Bool),
      innerLoop sink fuel st = some r →
      ∀ (k : Nat) (v : typeDescriptor),
        descMapLookup st.typeToDescriptorMap k = some v →
        descMapLookup r.1.typeToDescriptorMap k = some v) ∧
    (∀ (sink : Sink) (fuel : Nat) (st : ParseState) (r : ParseState × Bool),
      outerLoop sink fuel st = some r →
      ∀ (k : Nat) (v : typeDescriptor),
        descMapLookup st.typeToDescriptorMap k = some v →
        descMapLookup r.1.typeToDescriptorMap k = some v) := by
  refine ⟨storeDescriptor_map_eq, ?_, innerLoop_preserve, outerLoop_preserve⟩
  intro sink st desc hv hc
  unfold storeDescriptor
  simp [hv, hc, AP2DataPlotStatus.corruptFMTRead]

/-- C7 witness: a fresh insert, a rejected duplicate with its corrupt-FMT
incident, and loop preservation at a concrete idle state. -/
theorem claimC7_registry_insertion_policy_witness :
    ((storeDescriptor alwaysOkSink (initialState []) descPING).1.typeToDescriptorMap =
      if descPING.isValid = true ∧
          descMapContains (initialState []).typeToDescriptorMap descPING.m_ID = false
      then descMapInsert (initialState []).typeToDescriptorMap descPING.m_ID descPING
      else (initialState []).typeToDescriptorMap) ∧
    ((storeDescriptor alwaysOkSink idleMapState descPING).1.logLoadingState.corruptFMT =
      idleMapState.logLoadingState.corruptFMT ++
        [(idleMapState.messageCounter,
          descPING.m_name ++ " format data: Doubled entry found. Using the first one.")]) ∧
    descMapLookup idleMapState.typeToDescriptorMap 0x82 = some descPING ∧
    descMapLookup idleMapState.typeToDescriptorMap 0x82 = some descPING := by
  refine ⟨claimC7_registry_insertion_policy.1 alwaysOkSink (initialState []) descPING,
    claimC7_registry_insertion_policy.2.1 alwaysOkSink idleMapState descPING
      (by decide) (by decide), ?_, ?_⟩
  · exact claimC7_registry_insertion_policy.2.2.1 alwaysOkSink 1 idleMapState
      (idleMapState, false) (by rfl) 0x82 descPING (by rfl)
  · exact claimC7_registry_insertion_policy.2.2.2 alwaysOkSink 1 idleMapState
      (idleMapState, false) (by rfl) 0x82 descPING (by rfl)

/-- C8 (counterexample): on a file whose only record is a truncated FMT,
the parse halts with the source at EOF while five undecoded bytes (more
than MIN_HEADER_SIZE) remain buffered past the cursor, against the claim
that the loop does not stop in that situation. -/
theorem claimC8_eof_with_buffered_bytes :
    (parse alwaysOkSink truncatedFMTFile).map
        (fun st => (st.file.isEmpty, st.stop, st.dataBlock.length - st.dataPos)) =
      some (true, false, 5) := by decide

/-- C8 (amended): the outer loop halts exactly when the source is at EOF
or the stop flag is set (or the parse was aborted by a fatal sink
failure), regardless of how many undecoded bytes remain buffered: an
immediate halt happens under EOF-or-stop, and any state in which the
loop completes satisfies aborted-or-EOF-or-stop. -/
theorem claimC8_outer_loop_halt :
    (∀ (sink : Sink) (n : Nat) (st : ParseState),
      st.file = [] ∨ st.stop = true → outerLoop sink (n + 1) st = some (st, false)) ∧
    (∀ (sink : Sink) (fuel : Nat) (st t : ParseState) (ab : Bool),
      outerLoop sink fuel st = some (t, ab) →
      ab = true ∨ t.file = [] ∨ t.stop = true) := by
  constructor
  · intro sink n st h
    rw [outerLoop, if_neg]
    rcases h with h | h
    · simp [h]
    · simp [h]
  · intro sink fuel
    induction fuel with
    | zero => intro st t ab h; simp [outerLoop] at h
    | succ n ih =>
      intro st t ab h
      rw [outerLoop] at h
      split at h
      · simp only [] at h
        split at h
        · exact absurd h (by simp)
        · simp only [Option.some.injEq, Prod.mk.injEq] at h
          left
          exact h.2.symm
        · exact ih _ _ _ h
      · simp only [Option.some.injEq, Prod.mk.injEq] at h
        obtain ⟨h1, h2⟩ := h
        subst h1
        rename_i hcond
        push_neg at hcond
        by_cases hf : st.file.isEmpty = false
        · right; right; simpa using hcond hf
        · right; left
          simp only [Bool.not_eq_false] at hf
          exact List.isEmpty_iff.mp hf

/-- C8 witness: the immediate-halt clause at an empty file, and the
completion clause at the truncated-FMT run. -/
theorem claimC8_outer_loop_halt_witness :
    outerLoop alwaysOkSink 1 (initialState []) = some (initialState [], false) ∧
    (∃ t ab, outerLoop alwaysOkSink 2 (initialState truncatedFMTFile) = some (t, ab) ∧
      (ab = true ∨ t.file = [] ∨ t.stop = true)) := by
  refine ⟨claimC8_outer_loop_halt.1 alwaysOkSink 0 (initialState []) (Or.inl rfl), ?_⟩
  rcases hr : outerLoop alwaysOkSink 2 (initialState truncatedFMTFile) with _ | ⟨t, ab⟩
  · exact absurd hr (by decide)
  · exact ⟨t, ab, rfl, claimC8_outer_loop_halt.2 alwaysOkSink 2 _ t ab hr⟩

/-- C9 (confirmed): whenever at least length-3 bytes are buffered past
the cursor (which sits just past the 3-byte header), parseDataByDescriptor
returns true and consumes exactly length-3 unread bytes, whatever the
format string and record bytes are - in particular also when the decode
was aborted by a NaN float or an unknown format letter - so a discarded
record neither desynchronizes the cursor nor triggers resynchronization. -/
theorem claimC9_data_record_exact_consumption (block : List Nat) (pos : Nat)
    (desc : typeDescriptor) (mc : Nat)
    (hpos : s_HeaderOffset ≤ pos)
    (hlen : (desc.m_length : Int) - s_HeaderOffset ≤ (block.length : Int) - pos) :
    (parseDataByDescriptor block pos desc mc).1 = true ∧
    (parseDataByDescriptor block pos desc mc).2.2.1 = 0 ∧
    ((block.length : Int) - pos) - ((parseDataByDescriptor block pos desc mc).2.1.length : Int)
      = (desc.m_length : Int) - s_HeaderOffset := by
  have hcond : ¬((block.length : Int) - pos < (desc.m_length : Int) - s_HeaderOffset) := by omega
  unfold parseDataByDescriptor
  rw [if_neg hcond]
  refine ⟨rfl, rfl, ?_⟩
  simp only [List.length_drop]
  have hho : s_HeaderOffset = 3 := rfl
  rw [hho] at hlen hpos ⊢
  omega

/-- C9 witness: one record of descPING with a NaN-free one-byte body. -/
theorem claimC9_data_record_exact_consumption_witness :
    (parseDataByDescriptor [0xA3, 0x95, 0x82, 7] 3 descPING 0).1 = true ∧
    (parseDataByDescriptor [0xA3, 0x95, 0x82, 7] 3 descPING 0).2.2.1 = 0 ∧
    ((([0xA3, 0x95, 0x82, 7] : List Nat).length : Int) - 3) -
      ((parseDataByDescriptor [0xA3, 0x95, 0x82, 7] 3 descPING 0).2.1.length : Int)
      = (descPING.m_length : Int) - s_HeaderOffset :=
  claimC9_data_record_exact_consumption [0xA3, 0x95, 0x82, 7] 3 descPING 0
    (by decide) (by norm_num [descPING, s_HeaderOffset])

/-- C10 (confirmed): when an emitted PARM row has no field labeled Name,
detectMavType falls back to index 0 (which exists since the heuristic
only runs on rows with at least one value) and transitions the vehicle
kind according to the first field's value. -/
theorem claimC10_parm_name_fallback (st : ParseState) (pairs : List NameValuePair)
    (hne : pairs ≠ []) (hno : ∀ p ∈ pairs, p.1 ≠ "Name") :
    (detectMavType st pairs).loadedLogType =
      (let v := (pairs.getD 0 default).2
       if v = BinValue.strVal "RATE_RLL_P" ∨ v = BinValue.strVal "H_SWASH_PLATE" ∨
           v = BinValue.strVal "ATC_RAT_RLL_P" then MavType.quadrotor
       else if v = BinValue.strVal "PTCH2SRV_P" then MavType.fixedWing
       else if v = BinValue.strVal "SKID_STEER_OUT" then MavType.groundRover
       else st.loadedLogType) := by
  have hfind : pairs.findIdx? (fun p => p.1 = "Name") = none := by
    rw [List.findIdx?_eq_none_iff]
    intro p hp
    simp [hno p hp]
  have hproj : ∀ (s : ParseState) (lt : MavType),
      (if lt ≠ MavType.generic then
        { { s with loadedLogType := lt } with
          logLoadingState := ({ s with loadedLogType := lt }).logLoadingState.setMavType lt }
       else { s with loadedLogType := lt }).loadedLogType = lt := by
    intro s lt
    split <;> rfl
  unfold detectMavType
  rw [hfind]
  exact hproj st _

/-- C10 witness: a row whose only field is unlabeled as Name and holds
the string RATE_RLL_P; the fallback reads it at index 0 and the computed
kind is Quadrotor. -/
theorem claimC10_parm_name_fallback_witness :
    (detectMavType (initialState []) [("Value", BinValue.strVal "RATE_RLL_P")]).loadedLogType =
      MavType.quadrotor := by
  have h := claimC10_parm_name_fallback (initialState [])
    [("Value", BinValue.strVal "RATE_RLL_P")] (by decide) (by decide)
  simpa using h
